import Mathlib

/-!
Verification of the sensor-tree parsing engine of `hardware_monitor/sensor.py`
(`HardwareDataParser`): a shallow embedding of the parser into Lean, plus
theorems settling the specification's claims about it.

Modelling conventions:
* Python/JSON values are embedded as the inductive type `JVal`.
* Python floats are modelled exactly as rationals (`ℚ`); the decimal strings
  occurring in the repository's data parse exactly, so no rounding questions
  arise in any statement proved here.
* Python exceptions are modelled explicitly: the scanner returns the list of
  records appended so far together with an optional error
  (`AttributeError` / `TypeError`), mirroring where the source raises.
-/

/-- A JSON-compatible Python value, as traversed by `parse_data`.
Objects are association lists; Python dicts have unique keys, so first-match
lookup below is faithful. -/
inductive JVal where
  | jnull
  | jbool (b : Bool)
  | jnum (q : ℚ)
  | jstr (s : String)
  | jarr (xs : List JVal)
  | jobj (fields : List (String × JVal))

/-- The two exception classes the scanner can actually raise
(`AttributeError` from attribute access on a value lacking it, `TypeError`
from iterating a non-iterable). -/
inductive PyErr where
  | attributeError
  | typeError
deriving DecidableEq, Repr

/-- `d.get(key)` on a Python dict: value of the first (only) binding of
`key`, if present. -/
def pyGet : List (String × JVal) → String → Option JVal
  | [], _ => none
  | (k, v) :: rest, key => if k = key then some v else pyGet rest key

/-- Python truthiness (`bool(v)`) for the embedded values. -/
def pyTruthy : JVal → Bool
  | .jnull => false
  | .jbool b => b
  | .jnum q => q ≠ 0
  | .jstr s => s ≠ ""
  | .jarr xs => !xs.isEmpty
  | .jobj fs => !fs.isEmpty

/-- Python `str.lower()` restricted to ASCII (sensor identifiers are ASCII;
the table below is exactly what `lower` does on that range). -/
def toLowerChar (c : Char) : Char :=
  match c with
  | 'A' => 'a' | 'B' => 'b' | 'C' => 'c' | 'D' => 'd' | 'E' => 'e'
  | 'F' => 'f' | 'G' => 'g' | 'H' => 'h' | 'I' => 'i' | 'J' => 'j'
  | 'K' => 'k' | 'L' => 'l' | 'M' => 'm' | 'N' => 'n' | 'O' => 'o'
  | 'P' => 'p' | 'Q' => 'q' | 'R' => 'r' | 'S' => 's' | 'T' => 't'
  | 'U' => 'u' | 'V' => 'v' | 'W' => 'w' | 'X' => 'x' | 'Y' => 'y'
  | 'Z' => 'z'
  | c => c

/-- `s.lower()` on the character list of a string. -/
def pyLower (cs : List Char) : List Char := cs.map toLowerChar

/-- `s.strip("/")`: drop all leading and trailing `'/'` characters. -/
def stripChar (sep : Char) (cs : List Char) : List Char :=
  ((cs.dropWhile (· = sep)).reverse.dropWhile (· = sep)).reverse

/-- `s.split(sep)` for a one-character separator: splits on every occurrence
and keeps empty pieces, so `"".split("/") = [""]` and
`"a//b".split("/") = ["a", "", "b"]`, as in Python. -/
def splitChar (sep : Char) : List Char → List (List Char)
  | [] => [[]]
  | c :: cs =>
    if c = sep then [] :: splitChar sep cs
    else
      match splitChar sep cs with
      | [] => [[c]]
      | p :: ps => (c :: p) :: ps

/-- Python whitespace for `str.split()` with no argument (ASCII range). -/
def pyWs (c : Char) : Bool :=
  c = ' ' || c = '\t' || c = '\n' || c = '\r' || c.toNat = 11 || c.toNat = 12

/-- `s.split()[0]`: the first whitespace-delimited token of `s`, or `none`
when `s.split()` is empty (which in the source raises `IndexError`, caught
by `_extract_value`). -/
def firstToken (cs : List Char) : Option (List Char) :=
  match cs.dropWhile (fun c => pyWs c) with
  | [] => none
  | c :: rest => some (c :: rest.takeWhile (fun d => !pyWs d))

def isDigitCh (c : Char) : Bool := '0' ≤ c && c ≤ '9'

/-- Numeric value of a digit string (most significant first). -/
def digitsVal (ds : List Char) : ℕ := ds.foldl (fun a c => 10 * a + (c.toNat - 48)) 0

/-- Python's `float()` applied to a whitespace-free token, with the result
kept exact as a rational: optional sign, decimal digits with an optional
point, optional exponent.  (The `inf`/`nan` words and digit underscores that
`float()` also accepts are omitted: no input in the repository or the claims
uses them, and they never affect whether a record is emitted here.) -/
def pyFloat (cs : List Char) : Option ℚ :=
  let sgncs : ℚ × List Char :=
    match cs with
    | '+' :: r => (1, r)
    | '-' :: r => (-1, r)
    | _ => (1, cs)
  let sgn := sgncs.1
  let cs1 := sgncs.2
  let ip := cs1.takeWhile isDigitCh
  let cs2 := cs1.dropWhile isDigitCh
  let fpcs : List Char × List Char :=
    match cs2 with
    | '.' :: r => (r.takeWhile isDigitCh, r.dropWhile isDigitCh)
    | _ => ([], cs2)
  let fp := fpcs.1
  let cs3 := fpcs.2
  if ip = [] && fp = [] then none
  else
    let mant : ℚ := (digitsVal ip : ℚ) + (digitsVal fp : ℚ) / ((10 : ℚ) ^ fp.length)
    match cs3 with
    | [] => some (sgn * mant)
    | e :: r =>
      if e = 'e' || e = 'E' then
        let esgnr : Int × List Char :=
          match r with
          | '+' :: r2 => (1, r2)
          | '-' :: r2 => (-1, r2)
          | _ => (1, r)
        let ed := esgnr.2.takeWhile isDigitCh
        let r2 := esgnr.2.dropWhile isDigitCh
        if ed = [] || !r2.isEmpty then none
        else some (sgn * mant * (10 : ℚ) ^ (esgnr.1 * (digitsVal ed : Int)))
      else none

/-- Digits of a natural number, for `str()` of numbers. -/
def natDigits : ℕ → List Char
  | n =>
    if h : n < 10 then [Char.ofNat (48 + n)]
    else natDigits (n / 10) ++ [Char.ofNat (48 + n % 10)]
  decreasing_by exact Nat.div_lt_self (by omega) (by omega)

/-- `str(v)` for the embedded values, as far as the parser can observe it.
Lists and dicts are rendered with their opening bracket only: `float()`
fails on any token starting with `[` or `\x7b`, so their rendered elements
can never influence the parser. -/
def pyStr : JVal → List Char
  | .jnull => ['N', 'o', 'n', 'e']
  | .jbool true => ['T', 'r', 'u', 'e']
  | .jbool false => ['F', 'a', 'l', 's', 'e']
  | .jstr s => s.data
  | .jnum q =>
    (if q < 0 then ['-'] else []) ++ natDigits q.num.natAbs ++
      (if q.den = 1 then [] else '.' :: natDigits q.den)
  | .jarr _ => ['[']
  | .jobj _ => ['\x7b']

/-- `HardwareDataParser._extract_value`:

```python
if value is None: return None
try:    return float(str(value).split()[0])
except (ValueError, IndexError, AttributeError): return None
```
-/
def extract_value (v : JVal) : Option ℚ :=
  match v with
  | .jnull => none
  | w =>
    match firstToken (pyStr w) with
    | none => none
    | some tok => pyFloat tok

/-- One parsed sensor record — the Python dataclass `HardwareSensor`. -/
structure HardwareSensor where
  id : String
  hw_type : String
  sensor_category : String
  value : Option ℚ
  peak : Option ℚ
deriving DecidableEq, Repr

/-- Python's `pat in s` on strings: `pat` occurs as a contiguous substring
of `s` (the empty pattern always occurs). -/
def containsSub (pat : List Char) : List Char → Bool
  | [] => pat.isEmpty
  | c :: cs => pat.isPrefixOf (c :: cs) || containsSub pat cs

/-- The `if`/`elif` classification chain of `_scan`, taking the lowercased
last path segment (`sensor_type`) and returning the category, or `none` for
the final `else: return`.  (Python's `x in s` on strings is substring
containment; `s.startswith(p)` is the prefix test.) -/
def classify (st : List Char) : Option String :=
  if containsSub "temperature".data st then some "temperature"
  else if containsSub "power".data st then some "power"
  else if containsSub "load".data st || containsSub "usage".data st then some "usage"
  else if containsSub "clock".data st && !"clock/0".data.isPrefixOf st then
    some "frequency"
  else if containsSub "data".data st then some "memory"
  else if containsSub "throughput".data st then some "network"
  else none

/-- Outcome of the record-building part of `_scan` on one node (everything
before the `Children` loop):
* `err e` — an exception is raised (`sensor_id.strip` on a truthy
  non-string `SensorId`);
* `stop` — one of the two early `return`s fires (fewer than 2 path
  segments, or no category match): no record, **and the children loop is
  never reached**;
* `go r?` — fall through to the children loop, having appended the record
  `r` when `r? = some r` (or nothing when the `if sensor_id and value is
  not None` guard was false). -/
inductive StepResult where
  | err (e : PyErr)
  | stop
  | go (r? : Option HardwareSensor)
deriving DecidableEq, Repr

/-- Lines 38–71 of `_scan` on a dict node with fields `fs`:

```python
sensor_id = n.get("SensorId", "")
value = self._extract_value(n.get("Value"))
max_val = self._extract_value(n.get("Max"))
if sensor_id and value is not None:
    parts = sensor_id.strip("/").split("/")
    if len(parts) < 2:
        return
    hw_type = parts[0].lower()
    sensor_type = parts[-1].lower()
    <classification chain; else: return>
    self.hardware_data["sensors"].append(HardwareSensor(
        id=sensor_id, hw_type=hw_type, sensor_category=sensor_category,
        value=value, peak=max_val))
```
-/
def nodeStep (fs : List (String × JVal)) : StepResult :=
  let sensor_id := (pyGet fs "SensorId").getD (.jstr "")
  let value := extract_value ((pyGet fs "Value").getD .jnull)
  let max_val := extract_value ((pyGet fs "Max").getD .jnull)
  if pyTruthy sensor_id && value.isSome then
    match sensor_id with
    | .jstr s =>
      let parts := splitChar '/' (stripChar '/' s.data)
      if parts.length < 2 then .stop
      else
        let hw_type := pyLower (parts.headD [])
        let sensor_type := pyLower (parts.getLastD [])
        match classify sensor_type with
        | none => .stop
        | some cat =>
          .go (some ⟨s, String.mk hw_type, cat, value, max_val⟩)
    | _ => .err .attributeError
  else .go none

mutual

/-- `_scan(n)`: the records appended while scanning `n` (in append order),
together with the exception, if any, that aborted the scan.  A non-dict
argument raises `AttributeError` at `n.get`. -/
def scanE : JVal → List HardwareSensor × Option PyErr
  | .jobj fs =>
    match nodeStep fs with
    | .err e => ([], some e)
    | .stop => ([], none)
    | .go r? =>
      let rest := scanFields fs
      (r?.toList ++ rest.1, rest.2)
  | _ => ([], some .attributeError)

/-- `if "Children" in n: for child in n.get("Children", []): _scan(child)`,
realised by walking the node's field list to its first `"Children"` binding. -/
def scanFields : List (String × JVal) → List HardwareSensor × Option PyErr
  | [] => ([], none)
  | (k, v) :: rest => if k = "Children" then scanIter v else scanFields rest

/-- `for child in v: _scan(child)` for an arbitrary `Children` value:
a list iterates its elements; a non-empty string iterates its characters
(each a string, so the first `_scan(child)` raises `AttributeError`); a
non-empty dict iterates its keys (same failure); anything else raises
`TypeError` at the `for` itself. -/
def scanIter : JVal → List HardwareSensor × Option PyErr
  | .jarr xs => scanList xs
  | .jstr s => if s.data.isEmpty then ([], none) else ([], some .attributeError)
  | .jobj fs => if fs.isEmpty then ([], none) else ([], some .attributeError)
  | _ => ([], some .typeError)

/-- Scan a list of children in order, stopping at the first exception. -/
def scanList : List JVal → List HardwareSensor × Option PyErr
  | [] => ([], none)
  | x :: xs =>
    let r1 := scanE x
    match r1.2 with
    | some e => (r1.1, some e)
    | none =>
      let r2 := scanList xs
      (r1.1 ++ r2.1, r2.2)

end

/-- The dict `parse_data` builds in `self.hardware_data`. -/
structure Snapshot where
  timestamp : String
  sensors : List HardwareSensor
deriving DecidableEq, Repr

/-- The parser object: `__init__` sets `self.hardware_data = \x7b\x7d`
(modelled as `none`); after a `parse_data` call it holds the snapshot built
by that call. -/
structure HardwareDataParser where
  hardware_data : Option Snapshot := none
deriving DecidableEq, Repr

/-- `HardwareDataParser.parse_data(node)`.  `now` is the value
`datetime.now().isoformat()` captured once at the start of the call.  The
returned pair is the object's state after the call and the call's outcome:
the snapshot on normal return, or the exception that escaped (in which case
the state still holds the partially filled snapshot, as in the source). -/
def parse_data (_self : HardwareDataParser) (now : String) (node : JVal) :
    HardwareDataParser × Except PyErr Snapshot :=
  let scanned := scanE node
  let snap : Snapshot := ⟨now, scanned.1⟩
  (⟨some snap⟩,
    match scanned.2 with
    | none => .ok snap
    | some e => .error e)

/-! ## Specification-side definitions

The following definitions restate, in the spec's vocabulary, the per-node
emission criteria, the record a node should yield, the depth-first pre-order
of an input tree, and the well-typed input shape.  They are written from the
spec's sentences and are compared with the embedded code by the theorems
below. -/

/-- The node's `SensorId` as the string the scanner will work on: missing
field defaults to `""`; a non-string field has no such reading. -/
def sidAsStr (fs : List (String × JVal)) : Option String :=
  match pyGet fs "SensorId" with
  | none => some ""
  | some (.jstr s) => some s
  | some _ => none

/-- The node's coerced `Value`. -/
def valueOf (fs : List (String × JVal)) : Option ℚ :=
  extract_value ((pyGet fs "Value").getD .jnull)

/-- The node's coerced `Max`. -/
def maxOf (fs : List (String × JVal)) : Option ℚ :=
  extract_value ((pyGet fs "Max").getD .jnull)

/-- The path segments of a sensor id: split on `/` after trimming leading
and trailing `/` characters. -/
def partsOf (s : String) : List (List Char) :=
  splitChar '/' (stripChar '/' s.data)

/-- Spec step 2 ("skip-and-continue"): `SensorId` non-empty and `Value`
coerces to a number. -/
def precheckFs (fs : List (String × JVal)) : Bool :=
  match sidAsStr fs with
  | some s => s ≠ "" && (valueOf fs).isSome
  | none => false

/-- Spec steps 3–4: at least two path segments, and the lowercased last
segment matches one of the six category patterns. -/
def stage2Fs (fs : List (String × JVal)) : Bool :=
  match sidAsStr fs with
  | some s =>
    decide (2 ≤ (partsOf s).length) &&
      (classify (pyLower ((partsOf s).getLastD []))).isSome
  | none => false

/-- The full emission criteria of claim C1 / property P2. -/
def emitCriteriaFs (fs : List (String × JVal)) : Bool :=
  precheckFs fs && stage2Fs fs

/-- Spec step 5: the record a node satisfying the criteria yields —
`id` is the untrimmed original `SensorId`, `hw_type` the lowercased first
segment, the category from the lowercased last segment, `value` and `peak`
the coerced `Value` and `Max`. -/
def mkRecord (fs : List (String × JVal)) : HardwareSensor :=
  let s := (sidAsStr fs).getD ""
  ⟨s, String.mk (pyLower ((partsOf s).headD [])),
    (classify (pyLower ((partsOf s).getLastD []))).getD "",
    valueOf fs, maxOf fs⟩

/-- The record a node should produce according to the emission criteria:
`some` exactly when the criteria hold. -/
def emitRec : JVal → Option HardwareSensor
  | .jobj fs => if emitCriteriaFs fs then some (mkRecord fs) else none
  | _ => none

/-- The `SensorId` string carried by a node, when it has one. -/
def sidOfNode : JVal → Option String
  | .jobj fs =>
    match pyGet fs "SensorId" with
    | some (.jstr s) => some s
    | _ => none
  | _ => none

mutual

/-- Depth-first pre-order of the input tree (spec §3: parent before
children, children in input order), independent of any pruning the scanner
performs. -/
def preOrder : JVal → List JVal
  | .jobj fs => .jobj fs :: preOrderFields fs
  | _ => []

/-- Pre-order of the children reachable through the first `"Children"`
binding of the field list. -/
def preOrderFields : List (String × JVal) → List JVal
  | [] => []
  | (k, v) :: rest => if k = "Children" then preOrderIter v else preOrderFields rest

/-- Children of a `Children` value: only a list contributes nodes. -/
def preOrderIter : JVal → List JVal
  | .jarr xs => preOrderList xs
  | _ => []

/-- Pre-order of a list of sibling subtrees, in input order. -/
def preOrderList : List JVal → List JVal
  | [] => []
  | x :: xs => preOrder x ++ preOrderList xs

end

mutual

/-- The input contract of spec §6: a tree of dict nodes whose `SensorId`
(if present) is a string and whose `Children` (if present) is a list of such
nodes.  `Value` and `Max` are unconstrained: the coercer absorbs anything. -/
def wellTyped : JVal → Bool
  | .jobj fs => (sidAsStr fs).isSome && wtFields fs
  | _ => false

/-- Well-typedness of the `Children` binding, if any. -/
def wtFields : List (String × JVal) → Bool
  | [] => true
  | (k, v) :: rest => if k = "Children" then wtIter v else wtFields rest

/-- A present `Children` value must be a list of well-typed nodes. -/
def wtIter : JVal → Bool
  | .jarr xs => wtList xs
  | _ => false

/-- All nodes of a child list are well-typed. -/
def wtList : List JVal → Bool
  | [] => true
  | x :: xs => wellTyped x && wtList xs

end

/-- The simplified classifier of claim C10: identical to `classify` except
that the frequency rule is plain containment of `"clock"`, without the
`startswith("clock/0")` exclusion. -/
def classifySimple (st : List Char) : Option String :=
  if containsSub "temperature".data st then some "temperature"
  else if containsSub "power".data st then some "power"
  else if containsSub "load".data st || containsSub "usage".data st then some "usage"
  else if containsSub "clock".data st then some "frequency"
  else if containsSub "data".data st then some "memory"
  else if containsSub "throughput".data st then some "network"
  else none

/-- The ordered rule list of spec §4.2 step 4, and its first-match
evaluation, used to state that classification is first-match over an
ordered rule list. -/
def categoryRules : List ((List Char → Bool) × String) :=
  [(fun st => containsSub "temperature".data st, "temperature"),
   (fun st => containsSub "power".data st, "power"),
   (fun st => containsSub "load".data st || containsSub "usage".data st, "usage"),
   (fun st => containsSub "clock".data st && !"clock/0".data.isPrefixOf st, "frequency"),
   (fun st => containsSub "data".data st, "memory"),
   (fun st => containsSub "throughput".data st, "network")]

/-- First rule whose predicate accepts the segment wins. -/
def firstMatch (rules : List ((List Char → Bool) × String)) (st : List Char) :
    Option String :=
  match rules with
  | [] => none
  | r :: rest => if r.1 st then some r.2 else firstMatch rest st

/-- A concrete well-formed single-node field list (a valid temperature
sensor), used as instantiation input by witness theorems below. -/
def tempNode : List (String × JVal) :=
  [("SensorId", .jstr "/cpu/0/temperature"), ("Value", .jstr "5")]

/-- The E2E input tree of claim C9:
`{"SensorId": "/cpu/0/temperature/2", "Value": "45.2 °C", "Max": "78.0 °C",
"Children": []}`. -/
def e2eTree : JVal :=
  .jobj [("SensorId", .jstr "/cpu/0/temperature/2"), ("Value", .jstr "45.2 °C"),
    ("Max", .jstr "78.0 °C"), ("Children", .jarr [])]

/-- The nested mixed-validity input tree of claim C3:
`{"SensorId": "", "Children": [{"SensorId": "/mainboard/power/vcore",
"Value": "1.2 V"}, {"SensorId": "bad"}]}`. -/
def nestedTree : JVal :=
  .jobj [("SensorId", .jstr ""), ("Children", .jarr [
    .jobj [("SensorId", .jstr "/mainboard/power/vcore"), ("Value", .jstr "1.2 V")],
    .jobj [("SensorId", .jstr "bad")]])]

/-- A tree whose top level is a perfectly traversable node but whose
`Children` list contains a non-node entry (the string `"bad"`). -/
def badChildTree : JVal :=
  .jobj [("SensorId", .jstr ""), ("Children", .jarr [.jstr "bad"])]

/-- A concrete node whose last path segment is `"temperatureload"`. -/
def loadNode : List (String × JVal) :=
  [("SensorId", .jstr "/cpu/0/temperatureload"), ("Value", .jstr "5")]

/-- The single record the scanner emits for `tempNode`, used by the C4
witness. -/
def c4rec : HardwareSensor :=
  ⟨"/cpu/0/temperature", "cpu", "temperature", some 5, none⟩

/-! ## Infrastructure lemmas -/

/-- Induction on the `sizeOf` measure, used to recurse along the tree the
same way the scanner does. -/
theorem sizeOf_ind {α : Type} [SizeOf α] (P : α → Prop)
    (h : ∀ v, (∀ w, sizeOf w < sizeOf v → P w) → P v) : ∀ v, P v := by
  have key : ∀ (n : ℕ) (v : α), sizeOf v < n → P v := by
    intro n
    induction n with
    | zero => intro v hv; omega
    | succ m ih => intro v _hv; exact h v (fun w hw => ih w (by omega))
  exact fun v => key (sizeOf v + 1) v (by omega)

lemma pyGet_sizeOf {fs : List (String × JVal)} {k : String} {v : JVal}
    (h : pyGet fs k = some v) : sizeOf v < sizeOf fs := by
  induction fs with
  | nil => simp [pyGet] at h
  | cons p rest ih =>
    obtain ⟨k', v'⟩ := p
    by_cases hk : k' = k
    · simp [pyGet, hk] at h
      subst h
      simp
      omega
    · simp [pyGet, hk] at h
      have := ih h
      simp
      omega

lemma child_sizeOf {fs : List (String × JVal)} {xs : List JVal} {x : JVal}
    (hget : pyGet fs "Children" = some (.jarr xs)) (hx : x ∈ xs) :
    sizeOf x < sizeOf (JVal.jobj fs) := by
  have h1 : sizeOf x < sizeOf xs := List.sizeOf_lt_of_mem hx
  have h2 := pyGet_sizeOf hget
  simp at h2 ⊢
  omega

lemma scanFields_eq (fs : List (String × JVal)) :
    scanFields fs =
      match pyGet fs "Children" with
      | some v => scanIter v
      | none => ([], none) := by
  induction fs with
  | nil => simp [scanFields, pyGet]
  | cons p rest ih =>
    obtain ⟨k, v⟩ := p
    by_cases hk : k = "Children"
    · simp [scanFields, pyGet, hk]
    · simp [scanFields, pyGet, hk, ih]

lemma preOrderFields_eq (fs : List (String × JVal)) :
    preOrderFields fs =
      match pyGet fs "Children" with
      | some v => preOrderIter v
      | none => [] := by
  induction fs with
  | nil => simp [preOrderFields, pyGet]
  | cons p rest ih =>
    obtain ⟨k, v⟩ := p
    by_cases hk : k = "Children"
    · simp [preOrderFields, pyGet, hk]
    · simp [preOrderFields, pyGet, hk, ih]

lemma wtFields_eq (fs : List (String × JVal)) :
    wtFields fs =
      match pyGet fs "Children" with
      | some v => wtIter v
      | none => true := by
  induction fs with
  | nil => simp [wtFields, pyGet]
  | cons p rest ih =>
    obtain ⟨k, v⟩ := p
    by_cases hk : k = "Children"
    · simp [wtFields, pyGet, hk]
    · simp [wtFields, pyGet, hk, ih]

lemma dropWhile_head_false {α : Type} (p : α → Bool) :
    ∀ {l : List α} {x : α} {rest : List α}, l.dropWhile p = x :: rest → p x = false := by
  intro l
  induction l with
  | nil => intro x rest h; simp at h
  | cons c cs ih =>
    intro x rest h
    by_cases hc : p c
    · rw [List.dropWhile_cons_of_pos hc] at h
      exact ih h
    · rw [List.dropWhile_cons_of_neg hc] at h
      obtain ⟨h1, -⟩ := List.cons.injEq .. ▸ h
      cases h1
      simpa using hc

lemma stripChar_head {sep : Char} {cs : List Char} {c : Char} {rest : List Char}
    (h : stripChar sep cs = c :: rest) : c ≠ sep := by
  have hB : (cs.dropWhile (· = sep)).reverse.dropWhile (· = sep) = rest.reverse ++ [c] := by
    have h2 := congrArg List.reverse h
    simpa [stripChar] using h2
  have h1 : ((cs.dropWhile (· = sep)).reverse.dropWhile (· = sep)).getLast? = some c := by
    rw [hB]; simp
  obtain ⟨t, ht⟩ := List.dropWhile_suffix (l := (cs.dropWhile (· = sep)).reverse)
    (p := (· = sep))
  have h3 : (cs.dropWhile (· = sep)).reverse.getLast? = some c := by
    rw [← ht, List.getLast?_append_of_ne_nil]
    · exact h1
    · rw [hB]; simp
  have h4 : (cs.dropWhile (· = sep)).head? = some c := by
    rw [← List.getLast?_reverse]; exact h3
  cases hA : cs.dropWhile (· = sep) with
  | nil => rw [hA] at h4; simp at h4
  | cons a tail =>
    rw [hA] at h4
    simp at h4
    cases h4
    have := dropWhile_head_false (· = sep) hA
    simpa using this

lemma splitChar_ne_nil (sep : Char) (cs : List Char) : splitChar sep cs ≠ [] := by
  induction cs with
  | nil => simp [splitChar]
  | cons c cs ih =>
    by_cases hc : c = sep
    · simp [splitChar, hc]
    · simp only [splitChar, hc, if_false]
      cases h : splitChar sep cs with
      | nil => simp
      | cons p ps => simp

lemma mem_splitChar {sep : Char} {cs : List Char} {p : List Char}
    (h : p ∈ splitChar sep cs) : sep ∉ p := by
  induction cs generalizing p with
  | nil =>
    simp [splitChar] at h
    simp [h]
  | cons c cs ih =>
    by_cases hc : c = sep
    · simp [splitChar, hc] at h
      rcases h with h | h
      · simp [h]
      · exact ih h
    · simp only [splitChar, hc, if_false] at h
      cases hs : splitChar sep cs with
      | nil => exact absurd hs (splitChar_ne_nil sep cs)
      | cons q qs =>
        rw [hs] at h
        rcases List.mem_cons.mp h with h | h
        · subst h
          intro hmem
          rcases List.mem_cons.mp hmem with h | h
          · exact hc h.symm
          · exact ih (hs ▸ List.mem_cons_self q qs) h
        · exact ih (hs ▸ List.mem_cons_of_mem q h)

lemma splitChar_headD (sep : Char) (cs : List Char) :
    (splitChar sep cs).headD [] = cs.takeWhile (fun c => !(c = sep : Bool)) := by
  induction cs with
  | nil => simp [splitChar]
  | cons c cs ih =>
    by_cases hc : c = sep
    · simp [splitChar, hc, List.takeWhile_cons]
    · simp only [splitChar, hc, if_false]
      cases hs : splitChar sep cs with
      | nil => exact absurd hs (splitChar_ne_nil sep cs)
      | cons q qs =>
        rw [hs] at ih
        simp at ih
        simp [List.takeWhile_cons, hc, ← ih]

lemma getLastD_mem {α : Type} : ∀ (l : List α) (d : α), l ≠ [] → l.getLastD d ∈ l := by
  intro l
  induction l with
  | nil => intro d h; exact absurd rfl h
  | cons a t ih =>
    intro d _
    rw [List.getLastD_cons]
    cases ht : t with
    | nil => subst ht; simp
    | cons b u =>
      subst ht
      exact List.mem_cons_of_mem a (ih a (by simp))

lemma toLowerChar_ne {c : Char} (h : c ≠ '/') : toLowerChar c ≠ '/' := by
  unfold toLowerChar
  split <;> first | decide | exact h

lemma toLowerChar_low (c : Char) :
    toLowerChar c = c ∨ toLowerChar c ∈ ['a', 'b', 'c', 'd', 'e', 'f', 'g', 'h', 'i',
      'j', 'k', 'l', 'm', 'n', 'o', 'p', 'q', 'r', 's', 't', 'u', 'v', 'w', 'x', 'y',
      'z'] := by
  unfold toLowerChar
  split <;> simp

lemma toLowerChar_idem (c : Char) : toLowerChar (toLowerChar c) = toLowerChar c := by
  rcases toLowerChar_low c with h | h
  · rw [h]; exact h
  · have hd : ∀ d ∈ ['a', 'b', 'c', 'd', 'e', 'f', 'g', 'h', 'i', 'j', 'k', 'l', 'm',
        'n', 'o', 'p', 'q', 'r', 's', 't', 'u', 'v', 'w', 'x', 'y', 'z'],
        toLowerChar d = d := by decide
    rw [hd _ h]

lemma pyLower_idem (cs : List Char) : pyLower (pyLower cs) = pyLower cs := by
  simp [pyLower, List.map_map, Function.comp]
  exact fun a _ => toLowerChar_idem a

lemma pyLower_slash_free {cs : List Char} (h : '/' ∉ cs) : '/' ∉ pyLower cs := by
  intro hmem
  unfold pyLower at hmem
  obtain ⟨c, hc, heq⟩ := List.mem_map.mp hmem
  exact toLowerChar_ne (fun hce => h (hce ▸ hc)) heq

lemma classify_mem {st : List Char} {c : String} (h : classify st = some c) :
    c ∈ (["temperature", "power", "usage", "frequency", "memory", "network"] :
      List String) := by
  unfold classify at h
  split_ifs at h <;> simp_all

lemma classify_eq_firstMatch (st : List Char) :
    classify st = firstMatch categoryRules st := by
  rfl

lemma classify_eq_simple {st : List Char} (h : '/' ∉ st) :
    classify st = classifySimple st := by
  have hp : "clock/0".data.isPrefixOf st = false := by
    rw [Bool.eq_false_iff]
    intro hc
    have hpre : "clock/0".data <+: st := List.isPrefixOf_iff_prefix.mp hc
    exact h (hpre.sublist.mem (by decide))
  simp [classify, classifySimple, hp]

lemma scanE_obj (fs : List (String × JVal)) :
    scanE (.jobj fs) =
      match nodeStep fs with
      | .err e => ([], some e)
      | .stop => ([], none)
      | .go r? => (r?.toList ++ (scanFields fs).1, (scanFields fs).2) := by
  cases h : nodeStep fs <;> simp [scanE, h]

lemma sidAsStr_of_get_none {fs : List (String × JVal)}
    (h : pyGet fs "SensorId" = none) : sidAsStr fs = some "" := by
  simp [sidAsStr, h]

lemma sidAsStr_of_get_str {fs : List (String × JVal)} {s : String}
    (h : pyGet fs "SensorId" = some (.jstr s)) : sidAsStr fs = some s := by
  simp [sidAsStr, h]

lemma nodeStep_of_criteria {fs : List (String × JVal)}
    (h : emitCriteriaFs fs = true) : nodeStep fs = .go (some (mkRecord fs)) := by
  rw [emitCriteriaFs, Bool.and_eq_true] at h
  obtain ⟨hpre, hst⟩ := h
  rw [precheckFs] at hpre
  cases hsid : sidAsStr fs with
  | none => rw [hsid] at hpre; simp at hpre
  | some s =>
    rw [hsid] at hpre
    rw [stage2Fs, hsid] at hst
    simp at hpre hst
    obtain ⟨hne, hval⟩ := hpre
    obtain ⟨hlen, hcls⟩ := hst
    obtain ⟨q, hq⟩ := Option.isSome_iff_exists.mp hval
    obtain ⟨cat, hcat⟩ := Option.isSome_iff_exists.mp hcls
    rw [valueOf] at hq
    rw [partsOf] at hcat hlen
    have hnlt : ¬((splitChar '/' (stripChar '/' s.data)).length < 2) := by omega
    cases hget : pyGet fs "SensorId" with
    | none =>
      rw [sidAsStr_of_get_none hget] at hsid
      simp at hsid
      exact absurd hsid.symm hne
    | some v =>
      cases v with
      | jstr s' =>
        have hs : s' = s := by
          have := sidAsStr_of_get_str hget
          rw [hsid] at this
          exact (Option.some.injEq .. ▸ this).symm
        subst hs
        simp only [nodeStep, hget, Option.getD_some, hq, pyTruthy]
        simp only [Option.isSome_some, Bool.and_true, hne, ne_eq, not_false_iff,
          decide_True, if_true]
        simp only [hnlt, if_false, hcat]
        simp [mkRecord, hsid, partsOf, valueOf, maxOf, hq, hcat]
      | jnull => rw [sidAsStr, hget] at hsid; simp at hsid
      | jbool b => rw [sidAsStr, hget] at hsid; simp at hsid
      | jnum q' => rw [sidAsStr, hget] at hsid; simp at hsid
      | jarr xs => rw [sidAsStr, hget] at hsid; simp at hsid
      | jobj fs' => rw [sidAsStr, hget] at hsid; simp at hsid

lemma nodeStep_of_not_precheck {fs : List (String × JVal)}
    (hsid : (sidAsStr fs).isSome) (h : precheckFs fs = false) :
    nodeStep fs = .go none := by
  cases hget : pyGet fs "SensorId" with
  | none => simp [nodeStep, hget, pyTruthy]
  | some v =>
    cases v with
    | jstr s =>
      rw [precheckFs, sidAsStr_of_get_str hget] at h
      simp only [Bool.and_eq_false_iff] at h
      simp only [nodeStep, hget, Option.getD_some, pyTruthy]
      rcases h with h | h
      · simp only [ne_eq, h, decide_not] at *
        simp [h]
      · simp [valueOf] at h
        simp [h]
    | jnull => rw [sidAsStr, hget] at hsid; simp at hsid
    | jbool b => rw [sidAsStr, hget] at hsid; simp at hsid
    | jnum q => rw [sidAsStr, hget] at hsid; simp at hsid
    | jarr xs => rw [sidAsStr, hget] at hsid; simp at hsid
    | jobj fs' => rw [sidAsStr, hget] at hsid; simp at hsid

lemma nodeStep_of_stop {fs : List (String × JVal)}
    (hpre : precheckFs fs = true) (hst : stage2Fs fs = false) :
    nodeStep fs = .stop := by
  rw [precheckFs] at hpre
  cases hsid : sidAsStr fs with
  | none => rw [hsid] at hpre; simp at hpre
  | some s =>
    rw [hsid] at hpre
    rw [stage2Fs, hsid] at hst
    simp at hpre
    obtain ⟨hne, hval⟩ := hpre
    obtain ⟨q, hq⟩ := Option.isSome_iff_exists.mp hval
    rw [valueOf] at hq
    cases hget : pyGet fs "SensorId" with
    | none =>
      rw [sidAsStr_of_get_none hget] at hsid
      simp at hsid
      exact absurd hsid.symm hne
    | some v =>
      cases v with
      | jstr s' =>
        have hs : s' = s := by
          have := sidAsStr_of_get_str hget
          rw [hsid] at this
          exact (Option.some.injEq .. ▸ this).symm
        rw [hs] at hget
        simp only [nodeStep, hget, Option.getD_some, hq, pyTruthy]
        simp only [Option.isSome_some, Bool.and_true, hne, ne_eq, not_false_iff,
          decide_True, if_true]
        simp only [Bool.and_eq_false_iff] at hst
        rcases hst with hst | hst
        · rw [partsOf] at hst
          simp only [decide_eq_false_iff_not, not_le] at hst
          simp [hst]
        · rw [partsOf] at hst
          have hnone : classify (pyLower
              ((splitChar '/' (stripChar '/' s.data)).getLastD [])) = none :=
            Option.not_isSome_iff_eq_none.mp (by rw [hst]; exact Bool.false_ne_true)
          by_cases hlen : (splitChar '/' (stripChar '/' s.data)).length < 2
          · simp [hlen]
          · simp only [hlen, if_false, hnone]
      | jnull => rw [sidAsStr, hget] at hsid; simp at hsid
      | jbool b => rw [sidAsStr, hget] at hsid; simp at hsid
      | jnum q' => rw [sidAsStr, hget] at hsid; simp at hsid
      | jarr xs => rw [sidAsStr, hget] at hsid; simp at hsid
      | jobj fs' => rw [sidAsStr, hget] at hsid; simp at hsid

lemma nodeStep_go_some_inv {fs : List (String × JVal)} {r : HardwareSensor}
    (h : nodeStep fs = .go (some r)) :
    emitCriteriaFs fs = true ∧ r = mkRecord fs := by
  cases hget : pyGet fs "SensorId" with
  | none => simp [nodeStep, hget, pyTruthy] at h
  | some v =>
    cases v with
    | jstr s =>
      simp only [nodeStep, hget, Option.getD_some] at h
      by_cases hg : (pyTruthy (.jstr s) &&
          (extract_value ((pyGet fs "Value").getD .jnull)).isSome) = true
      · rw [if_pos hg] at h
        by_cases hlen : (splitChar '/' (stripChar '/' s.data)).length < 2
        · rw [if_pos hlen] at h; simp at h
        · rw [if_neg hlen] at h
          cases hcls : classify (pyLower
              ((splitChar '/' (stripChar '/' s.data)).getLastD [])) with
          | none => rw [hcls] at h; simp at h
          | some cat =>
            rw [hcls] at h
            simp only [StepResult.go.injEq, Option.some.injEq] at h
            rw [pyTruthy, Bool.and_eq_true] at hg
            obtain ⟨hne, hval⟩ := hg
            simp only [decide_eq_true_eq] at hne
            constructor
            · rw [emitCriteriaFs, Bool.and_eq_true]
              constructor
              · rw [precheckFs, sidAsStr_of_get_str hget]
                simp [hne, valueOf, hval]
              · rw [stage2Fs, sidAsStr_of_get_str hget]
                simp only [partsOf, Bool.and_eq_true, decide_eq_true_eq]
                refine ⟨by omega, ?_⟩
                rw [hcls]
                rfl
            · rw [← h, mkRecord, sidAsStr_of_get_str hget]
              simp only [Option.getD_some, partsOf, hcls, valueOf, maxOf]
      · rw [if_neg hg] at h; simp at h
    | jnull => simp [nodeStep, hget, pyTruthy] at h
    | jbool b =>
      simp only [nodeStep, hget, Option.getD_some] at h
      by_cases hg : (pyTruthy (.jbool b) &&
          (extract_value ((pyGet fs "Value").getD .jnull)).isSome) = true
      · rw [if_pos hg] at h; simp at h
      · rw [if_neg hg] at h; simp at h
    | jnum q' =>
      simp only [nodeStep, hget, Option.getD_some] at h
      by_cases hg : (pyTruthy (.jnum q') &&
          (extract_value ((pyGet fs "Value").getD .jnull)).isSome) = true
      · rw [if_pos hg] at h; simp at h
      · rw [if_neg hg] at h; simp at h
    | jarr xs =>
      simp only [nodeStep, hget, Option.getD_some] at h
      by_cases hg : (pyTruthy (.jarr xs) &&
          (extract_value ((pyGet fs "Value").getD .jnull)).isSome) = true
      · rw [if_pos hg] at h; simp at h
      · rw [if_neg hg] at h; simp at h
    | jobj fs' =>
      simp only [nodeStep, hget, Option.getD_some] at h
      by_cases hg : (pyTruthy (.jobj fs') &&
          (extract_value ((pyGet fs "Value").getD .jnull)).isSome) = true
      · rw [if_pos hg] at h; simp at h
      · rw [if_neg hg] at h; simp at h

lemma nodeStep_go_none_inv {fs : List (String × JVal)}
    (h : nodeStep fs = .go none) : emitCriteriaFs fs = false := by
  by_contra hc
  rw [Bool.not_eq_false] at hc
  rw [nodeStep_of_criteria hc] at h
  simp at h

lemma nodeStep_err_inv {fs : List (String × JVal)} {e : PyErr}
    (h : nodeStep fs = .err e) : emitCriteriaFs fs = false := by
  by_contra hc
  rw [Bool.not_eq_false] at hc
  rw [nodeStep_of_criteria hc] at h
  simp at h

lemma nodeStep_stop_inv {fs : List (String × JVal)}
    (h : nodeStep fs = .stop) : emitCriteriaFs fs = false := by
  by_contra hc
  rw [Bool.not_eq_false] at hc
  rw [nodeStep_of_criteria hc] at h
  simp at h

lemma emitRec_obj_of_false {fs : List (String × JVal)}
    (h : emitCriteriaFs fs = false) : emitRec (.jobj fs) = none := by
  simp [emitRec, h]

lemma emitRec_obj_of_true {fs : List (String × JVal)}
    (h : emitCriteriaFs fs = true) : emitRec (.jobj fs) = some (mkRecord fs) := by
  simp [emitRec, h]

lemma scanList_sublist {xs : List JVal}
    (IH : ∀ x ∈ xs, List.Sublist (scanE x).1 ((preOrder x).filterMap emitRec)) :
    List.Sublist (scanList xs).1 ((preOrderList xs).filterMap emitRec) := by
  induction xs with
  | nil => simp [scanList, preOrderList]
  | cons x xs ih =>
    have hx := IH x (List.mem_cons_self x xs)
    have hxs := ih (fun y hy => IH y (List.mem_cons_of_mem x hy))
    rw [preOrderList, List.filterMap_append]
    cases he : (scanE x).2 with
    | some e =>
      simp only [scanList, he]
      exact hx.trans (List.sublist_append_left _ _)
    | none =>
      simp only [scanList, he]
      exact List.Sublist.append hx hxs

lemma scanFields_sublist {fs : List (String × JVal)}
    (IH : ∀ x : JVal, sizeOf x < sizeOf (JVal.jobj fs) →
      List.Sublist (scanE x).1 ((preOrder x).filterMap emitRec)) :
    List.Sublist (scanFields fs).1 ((preOrderFields fs).filterMap emitRec) := by
  rw [scanFields_eq, preOrderFields_eq]
  cases hget : pyGet fs "Children" with
  | none => simp
  | some v' =>
    cases v' with
    | jarr xs =>
      simp only [scanIter, preOrderIter]
      exact scanList_sublist (fun x hx => IH x (child_sizeOf hget hx))
    | jnull => simp [scanIter, preOrderIter]
    | jbool b => simp [scanIter, preOrderIter]
    | jnum q => simp [scanIter, preOrderIter]
    | jstr s => simp only [scanIter, preOrderIter]; split <;> simp
    | jobj fs' => simp only [scanIter, preOrderIter]; split <;> simp

/-- C7: for every input tree, the records produced by `_scan` form a
sublist of the records the emission criteria assign to the tree's
depth-first pre-order (parent before children, children in input order):
an emitted record always precedes the records of the node's descendants,
and records from sibling subtrees keep the children's input order. -/
theorem c7_depth_first_order (v : JVal) :
    List.Sublist (scanE v).1 ((preOrder v).filterMap emitRec) := by
  induction v using sizeOf_ind with
  | _ v IH =>
    cases v with
    | jobj fs =>
      rw [scanE_obj]
      have hchild : List.Sublist (scanFields fs).1 ((preOrderFields fs).filterMap emitRec) :=
        scanFields_sublist (fun x hx => IH x hx)
      cases hstep : nodeStep fs with
      | err e => simp
      | stop => simp
      | go r? =>
        cases r? with
        | none =>
          have hnone := emitRec_obj_of_false (nodeStep_go_none_inv hstep)
          simp only [preOrder, List.filterMap_cons, hnone, Option.toList_none,
            List.nil_append]
          exact hchild
        | some r =>
          obtain ⟨hcrit, hrec⟩ := nodeStep_go_some_inv hstep
          have hsome : emitRec (.jobj fs) = some r := by
            rw [emitRec_obj_of_true hcrit, hrec]
          simp only [preOrder, List.filterMap_cons, hsome, Option.toList_some,
            List.singleton_append, List.cons_append, List.nil_append]
          exact hchild.cons₂ r
    | jnull => simp [scanE, preOrder]
    | jbool b => simp [scanE, preOrder]
    | jnum q => simp [scanE, preOrder]
    | jstr s => simp [scanE, preOrder]
    | jarr xs => simp [scanE, preOrder]

lemma parts_headD_ne_nil {s : String} (h : 2 ≤ (partsOf s).length) :
    (partsOf s).headD [] ≠ [] := by
  rw [partsOf] at h ⊢
  cases hL : stripChar '/' s.data with
  | nil => rw [hL] at h; simp [splitChar] at h
  | cons c rest =>
    rw [splitChar_headD]
    have hc : c ≠ '/' := stripChar_head hL
    simp [List.takeWhile_cons, hc]

lemma mkRecord_props {fs : List (String × JVal)} (h : emitCriteriaFs fs = true) :
    (mkRecord fs).id ≠ "" ∧ (mkRecord fs).hw_type ≠ "" ∧
    pyLower (mkRecord fs).hw_type.data = (mkRecord fs).hw_type.data ∧
    (mkRecord fs).sensor_category ∈
      (["temperature", "power", "usage", "frequency", "memory", "network"] :
        List String) ∧
    (mkRecord fs).value.isSome = true ∧
    sidOfNode (.jobj fs) = some (mkRecord fs).id := by
  rw [emitCriteriaFs, Bool.and_eq_true] at h
  obtain ⟨hpre, hst⟩ := h
  rw [precheckFs] at hpre
  cases hsid : sidAsStr fs with
  | none => rw [hsid] at hpre; simp at hpre
  | some s =>
    rw [hsid] at hpre
    rw [stage2Fs, hsid] at hst
    simp at hpre hst
    obtain ⟨hne, hval⟩ := hpre
    obtain ⟨hlen, hcls⟩ := hst
    obtain ⟨cat, hcat⟩ := Option.isSome_iff_exists.mp hcls
    have hgetstr : pyGet fs "SensorId" = some (.jstr s) := by
      cases hget : pyGet fs "SensorId" with
      | none =>
        rw [sidAsStr_of_get_none hget] at hsid
        simp at hsid
        exact absurd hsid.symm hne
      | some v =>
        cases v with
        | jstr s' =>
          have := sidAsStr_of_get_str hget
          rw [hsid] at this
          simp at this
          rw [this]
        | jnull => rw [sidAsStr, hget] at hsid; simp at hsid
        | jbool b => rw [sidAsStr, hget] at hsid; simp at hsid
        | jnum q' => rw [sidAsStr, hget] at hsid; simp at hsid
        | jarr xs => rw [sidAsStr, hget] at hsid; simp at hsid
        | jobj fs' => rw [sidAsStr, hget] at hsid; simp at hsid
    refine ⟨?_, ?_, ?_, ?_, ?_, ?_⟩
    · simp [mkRecord, hsid, hne]
    · simp only [mkRecord, hsid, Option.getD_some]
      intro hcon
      have hdata : pyLower ((partsOf s).headD []) = [] := congrArg String.data hcon
      have hhd := parts_headD_ne_nil hlen
      rw [pyLower, List.map_eq_nil_iff] at hdata
      exact hhd hdata
    · simp only [mkRecord, hsid, Option.getD_some]
      exact pyLower_idem _
    · rw [← List.getLastD_eq_getLast?] at hcat
      simp only [mkRecord, hsid, Option.getD_some, hcat]
      exact classify_mem hcat
    · simp [mkRecord, hsid, hval]
    · simp [sidOfNode, hgetstr, mkRecord, hsid]

lemma mem_scanList {xs : List JVal} {r : HardwareSensor}
    (h : r ∈ (scanList xs).1) : ∃ x ∈ xs, r ∈ (scanE x).1 := by
  induction xs with
  | nil => simp [scanList] at h
  | cons x xs ih =>
    cases he : (scanE x).2 with
    | some e =>
      simp only [scanList, he] at h
      exact ⟨x, List.mem_cons_self x xs, h⟩
    | none =>
      simp only [scanList, he] at h
      rcases List.mem_append.mp h with h | h
      · exact ⟨x, List.mem_cons_self x xs, h⟩
      · obtain ⟨y, hy, hr⟩ := ih h
        exact ⟨y, List.mem_cons_of_mem x hy, hr⟩

lemma mem_scanFields {fs : List (String × JVal)} {r : HardwareSensor}
    (h : r ∈ (scanFields fs).1) :
    ∃ xs x, pyGet fs "Children" = some (.jarr xs) ∧ x ∈ xs ∧ r ∈ (scanE x).1 := by
  rw [scanFields_eq] at h
  cases hget : pyGet fs "Children" with
  | none => rw [hget] at h; simp at h
  | some v' =>
    rw [hget] at h
    cases v' with
    | jarr xs =>
      simp only [scanIter] at h
      obtain ⟨x, hx, hr⟩ := mem_scanList h
      exact ⟨xs, x, rfl, hx, hr⟩
    | jnull => simp [scanIter] at h
    | jbool b => simp [scanIter] at h
    | jnum q => simp [scanIter] at h
    | jstr s => simp only [scanIter] at h; split at h <;> simp at h
    | jobj fs' => simp only [scanIter] at h; split at h <;> simp at h

lemma mem_preOrderList {xs : List JVal} {x n : JVal} (hx : x ∈ xs)
    (hn : n ∈ preOrder x) : n ∈ preOrderList xs := by
  induction xs with
  | nil => simp at hx
  | cons y ys ih =>
    rw [preOrderList]
    rcases List.mem_cons.mp hx with h | h
    · subst h; exact List.mem_append_left _ hn
    · exact List.mem_append_right _ (ih h)

lemma mem_preOrder_of_child {fs : List (String × JVal)} {xs : List JVal}
    {x n : JVal} (hget : pyGet fs "Children" = some (.jarr xs)) (hx : x ∈ xs)
    (hn : n ∈ preOrder x) : n ∈ preOrder (.jobj fs) := by
  rw [preOrder]
  refine List.mem_cons_of_mem _ ?_
  rw [preOrderFields_eq, hget]
  simpa only [preOrderIter] using mem_preOrderList hx hn

/-- C4: every record in the scanner's output has a non-empty `id` that is
the original untrimmed `SensorId` of some node of the input tree, a
non-empty lowercase `hw_type`, a `sensor_category` drawn from the closed
six-element set, and a present `value` (`peak` is unconstrained). -/
theorem c4_record_invariants (v : JVal) (r : HardwareSensor)
    (h : r ∈ (scanE v).1) :
    r.id ≠ "" ∧ r.hw_type ≠ "" ∧ pyLower r.hw_type.data = r.hw_type.data ∧
    r.sensor_category ∈
      (["temperature", "power", "usage", "frequency", "memory", "network"] :
        List String) ∧
    r.value.isSome = true ∧ (∃ n ∈ preOrder v, sidOfNode n = some r.id) := by
  induction v using sizeOf_ind with
  | _ v IH =>
    cases v with
    | jobj fs =>
      rw [scanE_obj] at h
      cases hstep : nodeStep fs with
      | err e => rw [hstep] at h; simp at h
      | stop => rw [hstep] at h; simp at h
      | go r? =>
        rw [hstep] at h
        simp only at h
        rcases List.mem_append.mp h with h | h
        · cases r? with
          | none => simp at h
          | some r' =>
            simp at h
            subst h
            obtain ⟨hcrit, hrec⟩ := nodeStep_go_some_inv hstep
            subst hrec
            obtain ⟨h1, h2, h3, h4, h5, h6⟩ := mkRecord_props hcrit
            exact ⟨h1, h2, h3, h4, h5,
              ⟨.jobj fs, by rw [preOrder]; exact List.mem_cons_self _ _, h6⟩⟩
        · obtain ⟨xs, x, hget, hx, hr⟩ := mem_scanFields h
          obtain ⟨h1, h2, h3, h4, h5, n, hn, h6⟩ :=
            IH x (child_sizeOf hget hx) hr
          exact ⟨h1, h2, h3, h4, h5,
            ⟨n, mem_preOrder_of_child hget hx hn, h6⟩⟩
    | jnull => simp [scanE] at h
    | jbool b => simp [scanE] at h
    | jnum q => simp [scanE] at h
    | jstr s => simp [scanE] at h
    | jarr xs => simp [scanE] at h

lemma nodeStep_ne_err {fs : List (String × JVal)} (hsid : (sidAsStr fs).isSome)
    (e : PyErr) : nodeStep fs ≠ .err e := by
  intro hcon
  by_cases hp : precheckFs fs = true
  · by_cases hs2 : stage2Fs fs = true
    · have hc : emitCriteriaFs fs = true := by rw [emitCriteriaFs, hp, hs2]; rfl
      rw [nodeStep_of_criteria hc] at hcon
      simp at hcon
    · rw [nodeStep_of_stop hp (Bool.not_eq_true _ ▸ hs2)] at hcon
      simp at hcon
  · rw [nodeStep_of_not_precheck hsid (Bool.not_eq_true _ ▸ hp)] at hcon
    simp at hcon

lemma scanList_no_err {xs : List JVal}
    (IH : ∀ x ∈ xs, wellTyped x = true → (scanE x).2 = none)
    (hwt : wtList xs = true) : (scanList xs).2 = none := by
  induction xs with
  | nil => simp [scanList]
  | cons x xs ih =>
    rw [wtList, Bool.and_eq_true] at hwt
    have hx := IH x (List.mem_cons_self x xs) hwt.1
    simp only [scanList, hx]
    exact ih (fun y hy => IH y (List.mem_cons_of_mem x hy)) hwt.2

lemma scan_wt_no_err : ∀ v : JVal, wellTyped v = true → (scanE v).2 = none := by
  intro v
  induction v using sizeOf_ind with
  | _ v IH =>
    cases v with
    | jobj fs =>
      intro hwt
      rw [wellTyped, Bool.and_eq_true] at hwt
      obtain ⟨hsid, hwt2⟩ := hwt
      rw [scanE_obj]
      cases hstep : nodeStep fs with
      | err e => exact absurd hstep (nodeStep_ne_err hsid e)
      | stop => rfl
      | go r? =>
        simp only
        rw [scanFields_eq]
        rw [wtFields_eq] at hwt2
        cases hget : pyGet fs "Children" with
        | none => rfl
        | some v' =>
          rw [hget] at hwt2
          cases v' with
          | jarr xs =>
            simp only [scanIter]
            simp only [wtIter] at hwt2
            exact scanList_no_err
              (fun x hx => IH x (child_sizeOf hget hx)) hwt2
          | jnull => simp [wtIter] at hwt2
          | jbool b => simp [wtIter] at hwt2
          | jnum q => simp [wtIter] at hwt2
          | jstr s => simp [wtIter] at hwt2
          | jobj fs' => simp [wtIter] at hwt2
    | jnull => intro hwt; simp [wellTyped] at hwt
    | jbool b => intro hwt; simp [wellTyped] at hwt
    | jnum q => intro hwt; simp [wellTyped] at hwt
    | jstr s => intro hwt; simp [wellTyped] at hwt
    | jarr xs => intro hwt; simp [wellTyped] at hwt

/-! ## Claim theorems -/

/-- C1, counterexample: the claim's "children are still visited and remain
eligible" clause fails.  The root node `{"SensorId": "cpu", "Value": "1",
"Children": [child]}` has a non-empty `SensorId` and a coercible `Value`
but only one path segment, so `_scan` hits `return` — and the child
`{"SensorId": "/cpu/0/temperature", "Value": "5"}`, which satisfies every
emission criterion, is never visited: the output is empty. -/
theorem c1_counterexample :
    emitCriteriaFs [("SensorId", JVal.jstr "/cpu/0/temperature"),
      ("Value", JVal.jstr "5")] = true ∧
    (scanE (.jobj [("SensorId", .jstr "cpu"), ("Value", .jstr "1"),
      ("Children", .jarr [.jobj [("SensorId", .jstr "/cpu/0/temperature"),
        ("Value", .jstr "5")]])])).1 = [] := by
  constructor
  · simp [emitCriteriaFs, precheckFs, stage2Fs, sidAsStr, pyGet, valueOf,
      extract_value, pyStr, firstToken, pyFloat, pyWs, isDigitCh, digitsVal,
      partsOf, stripChar, splitChar, pyLower, toLowerChar, classify, containsSub,
      List.isPrefixOf]
  · simp [scanE, scanFields, scanIter, scanList, nodeStep, pyGet, extract_value,
      pyStr, firstToken, pyFloat, pyWs, isDigitCh, digitsVal, pyTruthy, stripChar,
      splitChar, pyLower, toLowerChar, classify, containsSub, List.isPrefixOf]

/-- C1, amended: for a node whose `SensorId` reading is a string `s`
(present as a string, or absent and defaulting to `""`), a record is
emitted iff the emission criteria hold, and it precedes the children's
records; a node failing the precheck (empty `SensorId` or uncoercible
`Value`) still has its children visited; but a node passing the precheck
and failing the segment-count or category check returns early, emitting
nothing **and skipping its entire subtree**. -/
theorem c1_node_emission (fs : List (String × JVal)) (s : String)
    (hsid : sidAsStr fs = some s) :
    (emitCriteriaFs fs = true →
      scanE (.jobj fs) = (mkRecord fs :: (scanFields fs).1, (scanFields fs).2)) ∧
    (precheckFs fs = false → scanE (.jobj fs) = scanFields fs) ∧
    (precheckFs fs = true → stage2Fs fs = false → scanE (.jobj fs) = ([], none)) := by
  refine ⟨?_, ?_, ?_⟩
  · intro hc
    rw [scanE_obj, nodeStep_of_criteria hc]
    simp
  · intro hp
    rw [scanE_obj, nodeStep_of_not_precheck (by rw [hsid]; rfl) hp]
    simp
  · intro hp hs2
    rw [scanE_obj, nodeStep_of_stop hp hs2]

/-- Witness for `c1_node_emission`: its hypothesis and conclusion hold at
the concrete node `tempNode`. -/
theorem c1_node_emission_witness :
    sidAsStr tempNode = some "/cpu/0/temperature" ∧
    ((emitCriteriaFs tempNode = true →
      scanE (.jobj tempNode) =
        (mkRecord tempNode :: (scanFields tempNode).1, (scanFields tempNode).2)) ∧
    (precheckFs tempNode = false → scanE (.jobj tempNode) = scanFields tempNode) ∧
    (precheckFs tempNode = true → stage2Fs tempNode = false →
      scanE (.jobj tempNode) = ([], none))) :=
  ⟨by simp [tempNode, sidAsStr, pyGet],
    c1_node_emission tempNode "/cpu/0/temperature"
      (by simp [tempNode, sidAsStr, pyGet])⟩

/-- C2, counterexample: a per-node malformation does raise.  The top-level
input `badChildTree` is a traversable node (a dict with an empty `SensorId`
and a `Children` list), but its child is the string `"bad"`, and
`_scan("bad")` raises `AttributeError` at `n.get` — the exception escapes
`parse_data` even though the top level was fine.  By contrast, the same
tree with the bad child removed parses without error. -/
theorem c2_counterexample :
    (parse_data ⟨none⟩ "t" badChildTree).2 = .error .attributeError ∧
    (parse_data ⟨none⟩ "t"
      (.jobj [("SensorId", .jstr ""), ("Children", .jarr [])])).2 =
        .ok ⟨"t", []⟩ := by
  constructor
  · simp [parse_data, badChildTree, scanE, scanFields, scanIter, scanList,
      nodeStep, pyGet, extract_value, pyStr, firstToken, pyFloat, pyWs, isDigitCh,
      digitsVal, pyTruthy]
  · simp [parse_data, scanE, scanFields, scanIter, scanList, nodeStep, pyGet,
      extract_value, pyStr, firstToken, pyFloat, pyWs, isDigitCh, digitsVal,
      pyTruthy]

/-- C2, amended: `parse_data` absorbs every value-level malformation —
missing fields, empty `SensorId`, uncoercible or arbitrarily-typed `Value`
and `Max`, too few path segments, unrecognized categories — and returns
normally on every well-typed tree (each visited node a dict whose
`SensorId`, if present, is a string, and whose `Children`, if present, is a
list of such nodes).  Outside that shape an exception can propagate from
any depth, not only from the top level. -/
theorem c2_welltyped_no_raise (p : HardwareDataParser) (now : String) (v : JVal)
    (h : wellTyped v = true) :
    (parse_data p now v).2 = .ok ⟨now, (scanE v).1⟩ := by
  have hn := scan_wt_no_err v h
  simp [parse_data, hn]

/-- Witness for `c2_welltyped_no_raise` at the concrete one-node tree
`{"SensorId": "/cpu/0/temperature", "Value": "5"}`. -/
theorem c2_welltyped_no_raise_witness :
    wellTyped (.jobj tempNode) = true ∧
    (parse_data ⟨none⟩ "t" (.jobj tempNode)).2 =
      .ok ⟨"t", (scanE (.jobj tempNode)).1⟩ :=
  ⟨by simp [tempNode, wellTyped, wtFields, wtIter, wtList, sidAsStr, pyGet],
    c2_welltyped_no_raise _ _ _
      (by simp [tempNode, wellTyped, wtFields, wtIter, wtList, sidAsStr, pyGet])⟩

/-- C3, counterexample: the claimed single `vcore` record does not exist.
On `nestedTree` the scanner emits **no** records: the `vcore` node's last
path segment is `"vcore"`, which contains none of the six category
patterns (in particular not `"power"`), so the classification chain falls
through to `return`. -/
theorem c3_counterexample : (scanE nestedTree).1 = [] := by
  simp [nestedTree, scanE, scanFields, scanIter, scanList, nodeStep, pyGet,
    extract_value, pyStr, firstToken, pyFloat, pyWs, isDigitCh, digitsVal,
    pyTruthy, stripChar, splitChar, pyLower, toLowerChar, classify, containsSub,
    List.isPrefixOf]

/-- C3, amended: on the nested mixed-validity tree, `parse_data` returns
normally with an **empty** sensor list — the root is skipped (empty
`SensorId`, children still visited), the `vcore` child is skipped because
its last segment `"vcore"` matches no category, and the `"bad"` child is
skipped because it has no `Value`. -/
theorem c3_nested_tree_empty :
    (parse_data ⟨none⟩ "t" nestedTree).2 = .ok ⟨"t", []⟩ := by
  simp [parse_data, nestedTree, scanE, scanFields, scanIter, scanList, nodeStep,
    pyGet, extract_value, pyStr, firstToken, pyFloat, pyWs, isDigitCh, digitsVal,
    pyTruthy, stripChar, splitChar, pyLower, toLowerChar, classify, containsSub,
    List.isPrefixOf]

lemma extract_value_eq_bind (v : JVal) (hv : v ≠ .jnull) :
    extract_value v = (firstToken (pyStr v)).bind pyFloat := by
  cases v with
  | jnull => exact absurd rfl hv
  | jbool b => cases h : firstToken (pyStr (.jbool b)) <;> simp [extract_value, h]
  | jnum q => cases h : firstToken (pyStr (.jnum q)) <;> simp [extract_value, h]
  | jstr str => cases h : firstToken (pyStr (.jstr str)) <;> simp [extract_value, h]
  | jarr xs => cases h : firstToken (pyStr (.jarr xs)) <;> simp [extract_value, h]
  | jobj fs => cases h : firstToken (pyStr (.jobj fs)) <;> simp [extract_value, h]

/-- C5: `_extract_value` returns `none` for an absent (`None`) input;
otherwise it takes the string form of the value, extracts the first
whitespace-delimited token and parses it as a float, yielding `none` on any
failure (it is a total function of type `Option ℚ`, so it never raises);
in particular it maps `"42.5 °C" ↦ 42.5`, `"" ↦ none`, `None ↦ none`,
`"abc" ↦ none` and `37 ↦ 37.0`. -/
theorem c5_extract_value_spec :
    extract_value .jnull = none ∧
    (∀ v : JVal, v ≠ .jnull →
      extract_value v = (firstToken (pyStr v)).bind pyFloat) ∧
    extract_value (.jstr "42.5 °C") = some (42.5 : ℚ) ∧
    extract_value (.jstr "") = none ∧
    extract_value (.jstr "abc") = none ∧
    extract_value (.jnum 37) = some (37 : ℚ) := by
  refine ⟨rfl, extract_value_eq_bind, ?_, ?_, ?_, ?_⟩
  · simp [extract_value, pyStr, firstToken, pyFloat, pyWs, isDigitCh, digitsVal]
    norm_num
  · simp [extract_value, pyStr, firstToken, pyFloat, pyWs, isDigitCh, digitsVal]
  · simp [extract_value, pyStr, firstToken, pyFloat, pyWs, isDigitCh, digitsVal]
  · simp [extract_value, pyStr, firstToken, pyFloat, pyWs, isDigitCh, digitsVal,
      natDigits]

/-- Witness for the quantified clause of `c5_extract_value_spec`, at the
concrete non-null input `"x"`. -/
theorem c5_extract_value_witness :
    (JVal.jstr "x" ≠ JVal.jnull) ∧
    extract_value (.jstr "x") = (firstToken (pyStr (.jstr "x"))).bind pyFloat :=
  ⟨by simp, c5_extract_value_spec.2.1 _ (by simp)⟩

/-- C6: classification is first-match evaluation of the ordered rule list
on the lowercased last path segment; in particular `"temperatureload"`
matches the temperature rule before the load/usage rule, and every node
with that last segment (non-empty string `SensorId`, coercible `Value`,
at least two segments) heads the scan output with a `"temperature"`
record. -/
theorem c6_category_precedence :
    (∀ st : List Char, classify st = firstMatch categoryRules st) ∧
    classify "temperatureload".data = some "temperature" ∧
    (∀ (fs : List (String × JVal)) (s : String), sidAsStr fs = some s →
      precheckFs fs = true →
      pyLower ((partsOf s).getLastD []) = "temperatureload".data →
      2 ≤ (partsOf s).length →
      ∃ r, (scanE (.jobj fs)).1.head? = some r ∧
        r.sensor_category = "temperature") := by
  refine ⟨fun st => classify_eq_firstMatch st, by decide, ?_⟩
  intro fs s hsid hpre hlast hlen
  have hcrit : emitCriteriaFs fs = true := by
    rw [emitCriteriaFs, hpre, stage2Fs, hsid]
    simp only [Bool.true_and, Bool.and_eq_true, decide_eq_true_eq]
    refine ⟨hlen, ?_⟩
    rw [hlast]
    decide
  rw [scanE_obj, nodeStep_of_criteria hcrit]
  refine ⟨mkRecord fs, by simp, ?_⟩
  rw [mkRecord, hsid]
  simp only [Option.getD_some]
  rw [hlast]
  decide

/-- Witness for `c6_category_precedence`'s quantified clause at the
concrete node `loadNode`. -/
theorem c6_category_precedence_witness :
    sidAsStr loadNode = some "/cpu/0/temperatureload" ∧
    precheckFs loadNode = true ∧
    pyLower ((partsOf "/cpu/0/temperatureload").getLastD []) =
      "temperatureload".data ∧
    2 ≤ (partsOf "/cpu/0/temperatureload").length ∧
    (∃ r, (scanE (.jobj loadNode)).1.head? = some r ∧
      r.sensor_category = "temperature") := by
  have h1 : sidAsStr loadNode = some "/cpu/0/temperatureload" := by
    simp [loadNode, sidAsStr, pyGet]
  have h2 : precheckFs loadNode = true := by
    simp [loadNode, precheckFs, sidAsStr, pyGet, valueOf, extract_value, pyStr,
      firstToken, pyFloat, pyWs, isDigitCh, digitsVal]
  have h3 : pyLower ((partsOf "/cpu/0/temperatureload").getLastD []) =
      "temperatureload".data := by decide
  have h4 : 2 ≤ (partsOf "/cpu/0/temperatureload").length := by decide
  exact ⟨h1, h2, h3, h4, c6_category_precedence.2.2 loadNode _ h1 h2 h3 h4⟩

/-- C8: `parse_data` is stateless and deterministic up to the timestamp:
whatever the two parser objects' prior states and whatever the two capture
times, parsing the same tree yields the same sensor list, both in the
stored state and in the returned snapshot or error. -/
theorem c8_stateless_deterministic (p1 p2 : HardwareDataParser)
    (t1 t2 : String) (v : JVal) :
    (parse_data p1 t1 v).1.hardware_data.map Snapshot.sensors =
      (parse_data p2 t2 v).1.hardware_data.map Snapshot.sensors ∧
    Except.map Snapshot.sensors (parse_data p1 t1 v).2 =
      Except.map Snapshot.sensors (parse_data p2 t2 v).2 := by
  constructor
  · simp [parse_data]
  · simp only [parse_data]
    cases (scanE v).2 <;> simp [Except.map]

/-- C9, counterexample: the claimed record does not exist — on `e2eTree`
the scanner emits nothing, because classification uses the **last** path
segment, which is `"2"` and matches no category pattern. -/
theorem c9_counterexample : (scanE e2eTree).1 = [] := by
  simp [e2eTree, scanE, scanFields, scanIter, scanList, nodeStep, pyGet,
    extract_value, pyStr, firstToken, pyFloat, pyWs, isDigitCh, digitsVal,
    pyTruthy, stripChar, splitChar, pyLower, toLowerChar, classify, containsSub,
    List.isPrefixOf]

/-- C9, amended: on the single-node E2E input, `parse_data` returns
normally with an empty sensor list (last segment `"2"` matches no
category, so the node is skipped). -/
theorem c9_e2e_empty : (parse_data ⟨none⟩ "t" e2eTree).2 = .ok ⟨"t", []⟩ := by
  simp [parse_data, e2eTree, scanE, scanFields, scanIter, scanList, nodeStep,
    pyGet, extract_value, pyStr, firstToken, pyFloat, pyWs, isDigitCh, digitsVal,
    pyTruthy, stripChar, splitChar, pyLower, toLowerChar, classify, containsSub,
    List.isPrefixOf]

/-- C10: the `startswith("clock/0")` exclusion can never fire — the last
path segment never contains `/` (splitting on `/` produces slash-free
segments and lowercasing preserves that), and on every slash-free input
the classifier agrees with the simplified classifier whose frequency rule
is plain containment of `"clock"`. -/
theorem c10_exclusion_dead :
    (∀ s : String, '/' ∉ pyLower ((partsOf s).getLastD [])) ∧
    (∀ st : List Char, '/' ∉ st → classify st = classifySimple st) ∧
    (∀ s : String, classify (pyLower ((partsOf s).getLastD [])) =
      classifySimple (pyLower ((partsOf s).getLastD []))) := by
  have h1 : ∀ s : String, '/' ∉ pyLower ((partsOf s).getLastD []) := by
    intro s
    have hne : partsOf s ≠ [] := by
      rw [partsOf]; exact splitChar_ne_nil '/' (stripChar '/' s.data)
    have hmem : (partsOf s).getLastD [] ∈ partsOf s := getLastD_mem _ _ hne
    rw [partsOf] at hmem
    exact pyLower_slash_free (mem_splitChar hmem)
  exact ⟨h1, fun st h => classify_eq_simple h, fun s => classify_eq_simple (h1 s)⟩

/-- Witness for the quantified clause of `c10_exclusion_dead` at the
concrete slash-free segment `"clock"`. -/
theorem c10_exclusion_dead_witness :
    ('/' ∉ "clock".data) ∧ classify "clock".data = classifySimple "clock".data :=
  ⟨by decide, c10_exclusion_dead.2.1 _ (by decide)⟩

/-- Witness for `c4_record_invariants` at the concrete one-node tree
`.jobj tempNode` and its emitted record `c4rec`. -/
theorem c4_record_invariants_witness :
    c4rec ∈ (scanE (.jobj tempNode)).1 ∧
    (c4rec.id ≠ "" ∧ c4rec.hw_type ≠ "" ∧
      pyLower c4rec.hw_type.data = c4rec.hw_type.data ∧
      c4rec.sensor_category ∈
        (["temperature", "power", "usage", "frequency", "memory", "network"] :
          List String) ∧
      c4rec.value.isSome = true ∧
      (∃ n ∈ preOrder (.jobj tempNode), sidOfNode n = some c4rec.id)) := by
  have hmem : c4rec ∈ (scanE (.jobj tempNode)).1 := by
    simp [c4rec, tempNode, scanE, scanFields, scanIter, scanList, nodeStep, pyGet,
      extract_value, pyStr, firstToken, pyFloat, pyWs, isDigitCh, digitsVal,
      pyTruthy, stripChar, splitChar, pyLower, toLowerChar, classify, containsSub,
      List.isPrefixOf]
  exact ⟨hmem, c4_record_invariants _ _ hmem⟩
